import Mathlib

/-!
Shallow embedding of the authenticated-connection lifecycle and repository
access layer of the airflow-templates metadata tool
(`src/scripts/metadata/utils/auth.py` and `src/scripts/metadata/utils/db.py`),
together with proofs about the claims of its specification.

The database is modelled as an explicit table value, a Python exception as a
value of `PyExc` distinguished by the exception classes the source catches,
and each method as a pure function threading the table and the connection
observables (handle created / handle closed) explicitly.
-/

namespace AirflowMeta

/-- Python exception values, distinguished by the classes the source code
catches or raises: `psycopg2.Error` database errors, generic `Exception`
instances, `ValueError` from validation, and `NameError`/`UnboundLocalError`
from referencing an unassigned local variable. -/
inductive PyExc where
  | pgError (msg : String)
  | generic (msg : String)
  | valueError (msg : String)
  | nameError (msg : String)
deriving DecidableEq, Repr

/-- JSON-compatible Python values, as stored in a pipeline `config`. -/
inductive Json where
  | null
  | bool (b : Bool)
  | num (n : Int)
  | str (s : String)
  | arr (elems : List Json)
  | obj (fields : List (String × Json))

mutual

/-- `json.dumps` on a JSON value (library function used at db.py:43,142,222). -/
def Json.dumps : Json → String
  | .null => "null"
  | .bool b => if b then "true" else "false"
  | .num n => toString n
  | .str s => "\"" ++ s ++ "\""
  | .arr elems => "[" ++ Json.dumpsList elems ++ "]"
  | .obj fields => "\x7b" ++ Json.dumpsObj fields ++ "\x7d"

/-- Comma-separated serialization of a JSON array body. -/
def Json.dumpsList : List Json → String
  | [] => ""
  | [j] => Json.dumps j
  | j :: js => Json.dumps j ++ ", " ++ Json.dumpsList js

/-- Comma-separated serialization of a JSON object body. -/
def Json.dumpsObj : List (String × Json) → String
  | [] => ""
  | [(k, v)] => "\"" ++ k ++ "\": " ++ Json.dumps v
  | (k, v) :: kvs => "\"" ++ k ++ "\": " ++ Json.dumps v ++ ", " ++ Json.dumpsObj kvs

end

/-- A dynamically-typed Python value as passed for a pipeline field:
`None`, a bool, an int, a string, or a dict (a structured JSON mapping). -/
inductive PyVal where
  | none
  | bool (b : Bool)
  | int (n : Int)
  | str (s : String)
  | dict (fields : List (String × Json))

/-- A row of the `pipelines` table: store-assigned `id` and timestamps, the
unique `name` key, and the six mutable columns. -/
structure Row where
  id : Nat
  name : String
  type : PyVal
  schedule : PyVal
  enabled : PyVal
  config : PyVal
  owner : PyVal
  description : PyVal
  created_at : Nat
  updated_at : Nat

/-- The `pipelines` table: its rows plus the serial `id` sequence counter. -/
structure Table where
  rows : List Row
  nextId : Nat

/-- A pipeline record as supplied by the caller to `create`/`bulk_upsert`:
a dict with keys (name, type, schedule, enabled, config, owner, description). -/
structure PipelineRecord where
  name : String
  type : PyVal
  schedule : PyVal
  enabled : PyVal
  config : PyVal
  owner : PyVal
  description : PyVal

/-- The config-serialization step of db.py:42-43 and db.py:221-222:
`if isinstance(p.get('config'), dict): p['config'] = json.dumps(p['config'])`.
It mutates the caller's record in place; the returned record is the state of
the caller's dict after the statement. -/
def serializeConfig (p : PipelineRecord) : PipelineRecord :=
  match p.config with
  | .dict fields => { p with config := .str (Json.dumps (.obj fields)) }
  | _ => p

/-- Environment of one scoped-connection acquisition: the outcome of
`auth.get_oauth_token()`, whether `psycopg2.connect` succeeds, and whether
`conn.commit()` / `conn.rollback()` raise a `psycopg2.Error`. -/
structure ConnEnv where
  tokenRes : Except PyExc String
  connectOk : Bool
  commitFails : Bool
  rollbackFails : Bool

/-- Observable outcome of one scoped-connection acquisition
(`LakebaseConnection.get_connection`, auth.py:99-147): the value returned or
exception raised, the committed database state afterwards, whether a
connection handle was ever created, and whether `close()` ran on it. -/
structure GCOutcome (α : Type) where
  result : Except PyExc α
  db : Table
  connCreated : Bool
  connClosed : Bool

/-- Message used by the outer `except psycopg2.Error` handler at auth.py:142. -/
def lakebaseWrapMsg (m : String) : String := "Failed to connect to Lakebase: " ++ m

/-- The `UnboundLocalError` message Python raises at auth.py:145 when `conn`
was never assigned because `psycopg2.connect` itself raised. -/
def unboundConnMsg : String := "local variable \x27conn\x27 referenced before assignment"

/-- Message of the `psycopg2.Error` raised by a failing `conn.commit()`. -/
def commitFailMsg : String := "commit failed"

/-- Message of the `psycopg2.Error` raised by a failing `conn.rollback()`. -/
def rollbackFailMsg : String := "rollback failed"

/-- What the outer `except psycopg2.Error as e: raise Exception(...)` handler
at auth.py:140-142 does to an exception crossing it: a `psycopg2.Error` is
replaced by a generic `Exception` with the connect-failure message; every
other exception class passes through it untouched. -/
def wrapIfPg : PyExc → PyExc
  | .pgError m => .generic (lakebaseWrapMsg m)
  | e => e

/-- Embedding of `LakebaseConnection.get_connection` (auth.py:99-147).
The caller's block receives the committed state and returns the pending
transaction state together with a value or a raised exception.

Control flow of the source, traced:
- `get_oauth_token()` runs before the outer `try`; its exception propagates
  with no handle created and no `finally` involved.
- If `psycopg2.connect` raises, the outer handler raises the wrapping
  `Exception`, but the `finally` block then evaluates `if conn:` with `conn`
  never assigned, so an `UnboundLocalError` replaces it; no handle exists.
- If the block returns, `conn.commit()` publishes the pending state; a
  `psycopg2.Error` from `commit` is caught by the inner `except Exception`,
  which rolls back and re-raises; the re-raised `psycopg2.Error` is then
  caught by the *outer* `except psycopg2.Error` and wrapped.
- If the block raises, the inner handler rolls back (discarding the pending
  state) and re-raises; a `psycopg2.Error` escaping the inner handler
  (the block's own, or one from a failing `rollback`) is wrapped by the
  outer handler, any other class propagates unchanged.
- Whenever `conn` was assigned, the `finally` closes it. -/
def get_connection {α : Type} (env : ConnEnv) (db : Table)
    (block : Table → Table × Except PyExc α) : GCOutcome α :=
  match env.tokenRes with
  | .error e => ⟨.error e, db, false, false⟩
  | .ok _ =>
    if env.connectOk then
      match block db with
      | (pending, .ok v) =>
        if env.commitFails then
          if env.rollbackFails then
            ⟨.error (wrapIfPg (.pgError rollbackFailMsg)), db, true, true⟩
          else
            ⟨.error (wrapIfPg (.pgError commitFailMsg)), db, true, true⟩
        else
          ⟨.ok v, pending, true, true⟩
      | (_, .error e) =>
        if env.rollbackFails then
          ⟨.error (wrapIfPg (.pgError rollbackFailMsg)), db, true, true⟩
        else
          ⟨.error (wrapIfPg e), db, true, true⟩
    else
      ⟨.error (.nameError unboundConnMsg), db, false, false⟩

/-- The column allow-list of `PipelineRepository.update` (db.py:136). -/
def allowed_fields : List String :=
  ["schedule", "enabled", "config", "owner", "description", "type"]

/-- Assign one named mutable column of a row, as the `SET <field> = %s`
clause of db.py:144 does for a column name drawn from the allow-list. -/
def Row.setField (r : Row) (field : String) (v : PyVal) : Row :=
  if field = "schedule" then { r with schedule := v }
  else if field = "enabled" then { r with enabled := v }
  else if field = "config" then { r with config := v }
  else if field = "owner" then { r with owner := v }
  else if field = "description" then { r with description := v }
  else if field = "type" then { r with type := v }
  else r

/-- Read one named mutable column of a row. -/
def Row.getField (r : Row) (field : String) : PyVal :=
  if field = "schedule" then r.schedule
  else if field = "enabled" then r.enabled
  else if field = "config" then r.config
  else if field = "owner" then r.owner
  else if field = "description" then r.description
  else if field = "type" then r.type
  else .none

/-- Semantics of the statement `UPDATE pipelines SET <field> = %s WHERE
name = %s` built at db.py:144: set the column on every row whose `name`
matches, and report `cursor.rowcount`, the number of matched rows. -/
def sqlUpdate (t : Table) (field : String) (v : PyVal) (name : String) :
    Table × Nat :=
  (⟨t.rows.map (fun r => if r.name = name then r.setField field v else r), t.nextId⟩,
   t.rows.countP (fun r => decide (r.name = name)))

/-- Semantics of `DELETE FROM pipelines WHERE name = %s` (db.py:178): remove
every row whose `name` matches and report `cursor.rowcount`. -/
def sqlDelete (t : Table) (name : String) : Table × Nat :=
  (⟨t.rows.filter (fun r => decide (¬ r.name = name)), t.nextId⟩,
   t.rows.countP (fun r => decide (r.name = name)))

/-- Semantics of the `INSERT ... RETURNING id` statement of db.py:35-39 under
the store's unique-`name` constraint: a duplicate name raises a `psycopg2`
unique-violation error; otherwise the row is appended with the next serial id
and store-assigned timestamps, and the generated id is returned. -/
def sqlInsert (t : Table) (p : PipelineRecord) (now : Nat) :
    Table × Except PyExc Nat :=
  if t.rows.any (fun r => decide (r.name = p.name)) then
    (t, .error (.pgError "duplicate key value violates unique constraint"))
  else
    (⟨t.rows ++ [⟨t.nextId, p.name, p.type, p.schedule, p.enabled, p.config,
                 p.owner, p.description, now, now⟩], t.nextId + 1⟩,
     .ok t.nextId)

/-- The `DO UPDATE SET` clause of db.py:207-213: overwrite the six mutable
columns of an existing row with the incoming record's values, leaving `id`,
`name` and the timestamps as they are. -/
def Row.overwriteWith (r : Row) (p : PipelineRecord) : Row :=
  { r with type := p.type, schedule := p.schedule, enabled := p.enabled,
           config := p.config, owner := p.owner, description := p.description }

/-- Semantics of the `INSERT ... ON CONFLICT (name) DO UPDATE SET ...`
statement of db.py:204-214: if a row with the record's `name` exists, its
mutable columns are overwritten; otherwise a fresh row is inserted with the
next serial id and store-assigned timestamps. -/
def sqlUpsert (t : Table) (p : PipelineRecord) (now : Nat) : Table :=
  if t.rows.any (fun r => decide (r.name = p.name)) then
    ⟨t.rows.map (fun r => if r.name = p.name then r.overwriteWith p else r), t.nextId⟩
  else
    ⟨t.rows ++ [⟨t.nextId, p.name, p.type, p.schedule, p.enabled, p.config,
                p.owner, p.description, now, now⟩], t.nextId + 1⟩

/-- Embedding of `PipelineRepository.update` (db.py:122-156): validate the
field name against the allow-list *before* any connection or token is
obtained, serialize a dict `config` value, then run the UPDATE inside one
scoped connection and return whether `cursor.rowcount` was positive. -/
def PipelineRepository.update (env : ConnEnv) (db : Table)
    (name field : String) (value : PyVal) : GCOutcome Bool :=
  if field ∉ allowed_fields then
    ⟨.error (.valueError ("Invalid field \x27" ++ field ++ "\x27")), db, false, false⟩
  else
    let value := if field = "config" then
        match value with
        | .dict fields => PyVal.str (Json.dumps (.obj fields))
        | v => v
      else value
    get_connection env db (fun t =>
      let upd := sqlUpdate t field value name
      (upd.1, .ok (decide (upd.2 > 0))))

/-- Embedding of `PipelineRepository.delete` (db.py:166-190): run the DELETE
inside one scoped connection and return whether `cursor.rowcount` was
positive. -/
def PipelineRepository.delete (env : ConnEnv) (db : Table) (name : String) :
    GCOutcome Bool :=
  get_connection env db (fun t =>
    let del := sqlDelete t name
    (del.1, .ok (decide (del.2 > 0))))

/-- Outcome of `PipelineRepository.create`: the scoped-connection outcome
plus the state of the caller's record after the call. -/
structure CreateOutcome where
  out : GCOutcome Nat
  pipelineAfter : PipelineRecord

/-- Embedding of `PipelineRepository.create` (db.py:23-51): a dict `config`
is serialized in place into the caller's record *before* the connection is
acquired (db.py:42-43), then the INSERT runs in one scoped connection.
`pipelineAfter` is the caller's record after the call returns or raises. -/
def PipelineRepository.create (env : ConnEnv) (db : Table)
    (pipeline : PipelineRecord) (now : Nat) : CreateOutcome :=
  let pipeline := serializeConfig pipeline
  ⟨get_connection env db (fun t => sqlInsert t pipeline now), pipeline⟩

/-- The per-record loop of db.py:219-224 folded over the list: serialize each
record's config in place, then execute the upsert statement for it. -/
def bulkUpsertTable (t : Table) (ps : List PipelineRecord) (now : Nat) : Table :=
  ps.foldl (fun acc p => sqlUpsert acc (serializeConfig p) now) t

/-- Outcome of `PipelineRepository.bulk_upsert`: the scoped-connection outcome
plus the state of the caller's record list after the call. -/
structure BulkOutcome where
  out : GCOutcome Nat
  pipelinesAfter : List PipelineRecord

/-- Embedding of `PipelineRepository.bulk_upsert` (db.py:192-228). The loop
runs inside the scoped connection, so the in-place config serialization of
the caller's records happens exactly when the block runs (token obtained and
connection opened); the returned value is `len(pipelines)`. -/
def PipelineRepository.bulk_upsert (env : ConnEnv) (db : Table)
    (pipelines : List PipelineRecord) (now : Nat) : BulkOutcome :=
  ⟨get_connection env db
     (fun t => (bulkUpsertTable t pipelines now, .ok pipelines.length)),
   if env.tokenRes.isOk && env.connectOk
     then pipelines.map serializeConfig else pipelines⟩

/-- The single value the `SELECT 1` round trip fetches when it succeeds. -/
def selectOneRow : Int := 1

/-- Embedding of `LakebaseConnection.test_connection` (auth.py:149-167): run
`SELECT 1` inside a scoped connection, fetch the row, and after the scoped
block exits return whether the fetched value equals 1; any exception — from
token acquisition, connect, the query, or commit — is caught and yields
`false`. `queryFails` says whether the `SELECT 1` round trip raises a
`psycopg2.Error`. -/
def test_connection (env : ConnEnv) (db : Table) (queryFails : Bool) : Bool :=
  let out := get_connection env db (fun t =>
    (t, if queryFails then .error (.pgError "query failed") else .ok selectOneRow))
  match out.result with
  | .ok result => result == 1
  | .error _ => false

/-- The credential cache of `DatabricksAuth`: `_token` and `_token_expiry`
(auth.py:22-23); instants are in seconds. -/
structure AuthState where
  token : Option String
  token_expiry : Option Int
deriving DecidableEq, Repr

/-- Outcome of one `get_oauth_token` call: the cache afterwards, the token
returned or exception raised, and whether the token endpoint was called. -/
structure TokenOutcome where
  state : AuthState
  result : Except PyExc String
  networkCalled : Bool
deriving Repr

/-- The 5-minute refresh safety window of auth.py:46, in seconds. -/
def refresh_threshold : Int := 300

/-- The refresh path of auth.py:51-76: POST to the token endpoint (`net` is
its outcome); on success cache the token with expiry `now + token_lifetime`
and return it; on a request exception raise a generic `Exception` wrapping
the message, leaving the cache unchanged. -/
def refreshOAuthToken (token_lifetime : Int) (st : AuthState) (now : Int)
    (net : Except String String) : TokenOutcome :=
  match net with
  | .ok token_value =>
    ⟨⟨some token_value, some (now + token_lifetime)⟩, .ok token_value, true⟩
  | .error e => ⟨st, .error (.generic ("OAuth token request failed: " ++ e)), true⟩

/-- Embedding of `DatabricksAuth.get_oauth_token` (auth.py:33-76). `now` is
`datetime.now()` and `net` the outcome of the token-endpoint POST. The cached
token is returned without any network call when `force_refresh` is false, the
cached `_token` is truthy (a non-empty string), `_token_expiry` is set, and
`now` is strictly before expiry minus the 5-minute window; in every other
case the endpoint is called. -/
def get_oauth_token (token_lifetime : Int) (st : AuthState) (now : Int)
    (net : Except String String) (force_refresh : Bool) : TokenOutcome :=
  match st.token, st.token_expiry with
  | some tok, some expiry =>
    if !force_refresh && !tok.isEmpty && decide (now < expiry - refresh_threshold) then
      ⟨st, .ok tok, false⟩
    else
      refreshOAuthToken token_lifetime st now net
  | _, _ => refreshOAuthToken token_lifetime st now net

/-- The Lakebase connection configuration dict (auth.py:88-97, runner config
keys host, port, database, user, schema, sslmode). -/
structure LakebaseConfig where
  host : String
  port : Nat
  database : String
  user : String
  schema : String
  sslmode : String

/-- The `options` connect parameter built at auth.py:124: the session search
path is the *configured* schema followed by public. -/
def connectionOptions (config : LakebaseConfig) : String :=
  "-c search_path=" ++ config.schema ++ ",public"

/-- The schema-name literal hard-coded in the DROP statement at db.py:261. -/
def dropSchemaName : String := "metadata"

/-- The schema-name literal hard-coded in the catalog query at db.py:275. -/
def schemaExistsName : String := "metadata"

/-- Embedding of `SchemaManager.drop_schema` (db.py:255-263) against a
catalog of existing schema names: `DROP SCHEMA IF EXISTS metadata CASCADE`
removes the namespace named by the literal in the statement. The connection
configuration is in scope (it sets the session's search path) but the
statement text does not mention it. -/
def SchemaManager.drop_schema (config : LakebaseConfig)
    (catalog : List String) : List String :=
  catalog.filter (fun s => decide (¬ s = dropSchemaName))

/-- Embedding of `SchemaManager.schema_exists` (db.py:265-285): the catalog
query reports existence of the schema named by the literal in the query. -/
def SchemaManager.schema_exists (config : LakebaseConfig)
    (catalog : List String) : Bool :=
  catalog.contains schemaExistsName

/-- A concrete sample row used by concrete instantiations. -/
def rowA : Row :=
  ⟨1, "etl1", .str "databricks", .none, .bool true, .str "null", .none, .none, 0, 0⟩

/-- A positive match count is the same as a row with the name existing. -/
theorem countMatching_decide (rows : List Row) (name : String) :
    decide (0 < rows.countP (fun r => decide (r.name = name)))
      = decide (∃ r ∈ rows, r.name = name) := by
  rw [decide_eq_decide, List.countP_pos_iff]
  simp

/-- C2: for every invocation of the scoped connection, the claim says the
underlying handle is closed before control returns and no other exception
replaces the one being propagated.  The code violates this when
`psycopg2.connect` itself raises: the local `conn` was never assigned, so the
`finally` block's `if conn:` raises an `UnboundLocalError` that replaces the
wrapped connection error; no handle exists, none is closed. -/
theorem c2_theorem (tok : String) (cf rf : Bool) (db : Table) {α : Type}
    (block : Table → Table × Except PyExc α) :
    (get_connection ⟨.ok tok, false, cf, rf⟩ db block).result
        = .error (.nameError unboundConnMsg)
    ∧ (get_connection ⟨.ok tok, false, cf, rf⟩ db block).connCreated = false
    ∧ (get_connection ⟨.ok tok, false, cf, rf⟩ db block).connClosed = false
    ∧ (get_connection ⟨.ok tok, false, cf, rf⟩ db block).db = db :=
  ⟨rfl, rfl, rfl, rfl⟩

/-- C1 counterexample: a caller block that writes a row and then raises a
`psycopg2.Error` sees its transaction rolled back, but the exception that
reaches the caller is a new generic `Exception` with the connect-failure
message, not the exception the block raised. -/
theorem c1_counterexample :
    (get_connection ⟨.ok "tok", true, false, false⟩ (⟨[], 1⟩ : Table)
        (fun t => (⟨t.rows ++ [rowA], t.nextId + 1⟩,
          (.error (.pgError "boom") : Except PyExc Unit)))).result
        = .error (.generic (lakebaseWrapMsg "boom"))
    ∧ (PyExc.generic (lakebaseWrapMsg "boom")) ≠ PyExc.pgError "boom" := by
  exact ⟨rfl, by decide⟩

/-- C1 (amended): within a scoped connection that opened successfully and
whose rollback does not itself fail, a block that completes normally has its
transaction committed (when commit succeeds), and a block that raises has its
pending writes discarded by rollback — the block's exception is propagated
unchanged unless it is a `psycopg2.Error`, in which case a generic
`Exception` wrapping it is raised instead; either way the failing block's
writes never persist. -/
theorem c1_theorem {α : Type} (env : ConnEnv) (db : Table)
    (block : Table → Table × Except PyExc α) (tok : String)
    (hTok : env.tokenRes = .ok tok) (hConn : env.connectOk = true)
    (hRb : env.rollbackFails = false) :
    (∀ pending v, block db = (pending, .ok v) → env.commitFails = false →
        get_connection env db block = ⟨.ok v, pending, true, true⟩)
    ∧ (∀ pending e, block db = (pending, .error e) →
        get_connection env db block = ⟨.error (wrapIfPg e), db, true, true⟩) := by
  obtain ⟨tr, co, cf, rf⟩ := env
  replace hTok : tr = Except.ok tok := hTok
  replace hConn : co = true := hConn
  replace hRb : rf = false := hRb
  subst hTok hConn hRb
  constructor
  · intro pending v hb hcf
    replace hcf : cf = false := hcf
    subst hcf
    simp [get_connection, hb]
  · intro pending e hb
    simp [get_connection, hb]

/-- C1 witness: concrete run of the failure branch, showing the write made
before the failure does not persist. -/
theorem c1_witness :
    get_connection ⟨.ok "tok", true, false, false⟩ (⟨[], 1⟩ : Table)
        (fun t => (⟨t.rows ++ [rowA], t.nextId + 1⟩,
          (.error (.generic "exc") : Except PyExc Unit)))
      = ⟨.error (wrapIfPg (.generic "exc")), ⟨[], 1⟩, true, true⟩ :=
  (c1_theorem ⟨.ok "tok", true, false, false⟩ ⟨[], 1⟩
      (fun t => (⟨t.rows ++ [rowA], t.nextId + 1⟩,
        (.error (.generic "exc") : Except PyExc Unit)))
      "tok" rfl rfl rfl).2 ⟨[] ++ [rowA], 1 + 1⟩ (.generic "exc") rfl

/-- C7: `test_connection` returns true exactly when the token is obtained,
the connection opens, the `SELECT 1` round trip succeeds and the commit
succeeds — and it returns a boolean (false) in every failure case rather
than propagating the exception. -/
theorem c7_theorem (env : ConnEnv) (db : Table) (queryFails : Bool) :
    test_connection env db queryFails = true ↔
      ((∃ tok, env.tokenRes = .ok tok) ∧ env.connectOk = true
        ∧ queryFails = false ∧ env.commitFails = false) := by
  obtain ⟨tr, co, cf, rf⟩ := env
  cases tr <;> cases co <;> cases cf <;> cases rf <;> cases queryFails <;>
    simp [test_connection, get_connection, selectOneRow]

/-- C4: `update` with a field outside the allow-list raises a `ValueError`
with no connection handle created, no token consulted and the table
unchanged; with a field inside the allow-list no such validation error is
raised — under a working environment the call returns a boolean. -/
theorem c4_theorem (env : ConnEnv) (db : Table) (name field : String) (value : PyVal) :
    (field ∉ allowed_fields →
        PipelineRepository.update env db name field value =
          ⟨.error (.valueError ("Invalid field \x27" ++ field ++ "\x27")),
            db, false, false⟩)
    ∧ (field ∈ allowed_fields → ∀ tok, env.tokenRes = .ok tok →
        env.connectOk = true → env.commitFails = false →
        ∃ b : Bool, (PipelineRepository.update env db name field value).result = .ok b) := by
  constructor
  · intro h
    simp [PipelineRepository.update, h]
  · intro h tok hTok hConn hCf
    obtain ⟨tr, co, cf, rf⟩ := env
    replace hTok : tr = Except.ok tok := hTok
    replace hConn : co = true := hConn
    replace hCf : cf = false := hCf
    subst hTok hConn hCf
    simp [PipelineRepository.update, h, get_connection]

/-- C4 witness: updating `id` fails with the validation error and leaves
everything untouched; updating `owner` returns a boolean. -/
theorem c4_witness :
    (PipelineRepository.update ⟨.ok "tok", true, false, false⟩ ⟨[rowA], 2⟩
        "etl1" "id" (.int 5) =
      ⟨.error (.valueError ("Invalid field \x27" ++ "id" ++ "\x27")),
        ⟨[rowA], 2⟩, false, false⟩)
    ∧ ∃ b : Bool, (PipelineRepository.update ⟨.ok "tok", true, false, false⟩
        ⟨[rowA], 2⟩ "etl1" "owner" (.str "alice")).result = .ok b :=
  ⟨(c4_theorem ⟨.ok "tok", true, false, false⟩ ⟨[rowA], 2⟩ "etl1" "id" (.int 5)).1
      (by decide),
   (c4_theorem ⟨.ok "tok", true, false, false⟩ ⟨[rowA], 2⟩ "etl1" "owner"
      (.str "alice")).2 (by decide) "tok" rfl rfl rfl⟩

/-- C5: under a working environment, `update` (with an allow-listed field)
and `delete` both return `ok true` exactly when a row with the given name
exists and `ok false` when none does — absence is a boolean result, never a
raised exception. -/
theorem c5_theorem (env : ConnEnv) (db : Table) (name field : String) (value : PyVal)
    (hf : field ∈ allowed_fields) (tok : String) (hTok : env.tokenRes = .ok tok)
    (hConn : env.connectOk = true) (hCf : env.commitFails = false) :
    ((PipelineRepository.update env db name field value).result
        = .ok (decide (∃ r ∈ db.rows, r.name = name)))
    ∧ ((PipelineRepository.delete env db name).result
        = .ok (decide (∃ r ∈ db.rows, r.name = name))) := by
  obtain ⟨tr, co, cf, rf⟩ := env
  replace hTok : tr = Except.ok tok := hTok
  replace hConn : co = true := hConn
  replace hCf : cf = false := hCf
  subst hTok hConn hCf
  constructor
  · rw [← countMatching_decide]
    simp [PipelineRepository.update, hf, get_connection, sqlUpdate]
  · rw [← countMatching_decide]
    simp [PipelineRepository.delete, get_connection, sqlDelete]

/-- C5 witness: with one row named etl1, updating and deleting etl1 report
true, and the decidable existence test agrees. -/
theorem c5_witness :
    ((PipelineRepository.update ⟨.ok "tok", true, false, false⟩ ⟨[rowA], 2⟩
        "etl1" "owner" (.str "alice")).result
      = .ok (decide (∃ r ∈ (⟨[rowA], 2⟩ : Table).rows, r.name = "etl1")))
    ∧ ((PipelineRepository.delete ⟨.ok "tok", true, false, false⟩ ⟨[rowA], 2⟩
        "etl1").result
      = .ok (decide (∃ r ∈ (⟨[rowA], 2⟩ : Table).rows, r.name = "etl1"))) :=
  c5_theorem ⟨.ok "tok", true, false, false⟩ ⟨[rowA], 2⟩ "etl1" "owner"
    (.str "alice") (by decide) "tok" rfl rfl rfl

/-- Both the 2xx and the request-exception outcome of the token endpoint
count as one network call. -/
theorem refreshOAuthToken_networkCalled (token_lifetime : Int) (st : AuthState)
    (now : Int) (net : Except String String) :
    (refreshOAuthToken token_lifetime st now net).networkCalled = true := by
  cases net <;> rfl

/-- Outside the cache-hit situation `get_oauth_token` takes the refresh
path. -/
theorem get_oauth_token_refresh_eq (token_lifetime : Int) (st : AuthState)
    (now : Int) (net : Except String String)
    (h : ¬ ∃ tok expiry, st.token = some tok ∧ tok.isEmpty = false
        ∧ st.token_expiry = some expiry ∧ now < expiry - refresh_threshold) :
    get_oauth_token token_lifetime st now net false
      = refreshOAuthToken token_lifetime st now net := by
  obtain ⟨tk, te⟩ := st
  cases tk with
  | none => rfl
  | some tok =>
    cases te with
    | none => rfl
    | some expiry =>
      simp only [get_oauth_token]
      rw [if_neg]
      intro hc
      simp only [Bool.not_false, Bool.true_and, Bool.and_eq_true,
        Bool.not_eq_true', decide_eq_true_eq] at hc
      exact h ⟨tok, expiry, rfl, hc.1, rfl, hc.2⟩

/-- C3: with `force_refresh` false, a cached non-empty token whose expiry is
strictly more than the 5-minute window away is returned with no network call
and no cache change; in every other cache/clock situation the endpoint is
called, and on a successful call the new token is cached with expiry
`now + token_lifetime` and returned. -/
theorem c3_theorem (token_lifetime : Int) (st : AuthState) (now : Int)
    (net : Except String String) :
    (∀ tok expiry, st.token = some tok → tok.isEmpty = false →
        st.token_expiry = some expiry → now < expiry - refresh_threshold →
        get_oauth_token token_lifetime st now net false = ⟨st, .ok tok, false⟩)
    ∧ ((¬ ∃ tok expiry, st.token = some tok ∧ tok.isEmpty = false
          ∧ st.token_expiry = some expiry ∧ now < expiry - refresh_threshold) →
        (get_oauth_token token_lifetime st now net false).networkCalled = true
        ∧ ∀ tv, net = .ok tv →
            get_oauth_token token_lifetime st now net false
              = ⟨⟨some tv, some (now + token_lifetime)⟩, .ok tv, true⟩) := by
  constructor
  · intro tok expiry h1 h2 h3 h4
    obtain ⟨tk, te⟩ := st
    replace h1 : tk = some tok := h1
    replace h3 : te = some expiry := h3
    subst h1 h3
    simp [get_oauth_token, h2, h4]
  · intro h
    rw [get_oauth_token_refresh_eq token_lifetime st now net h]
    refine ⟨refreshOAuthToken_networkCalled token_lifetime st now net, ?_⟩
    intro tv htv
    rw [htv]
    rfl

/-- C3 witness: at time 0 a token cached until 1000 is served from the cache;
at time 800 (inside the 300-second window) the endpoint is called and the
cache updated. -/
theorem c3_witness :
    (get_oauth_token 3600 ⟨some "t1", some 1000⟩ 0 (.ok "t2") false
        = ⟨⟨some "t1", some 1000⟩, .ok "t1", false⟩)
    ∧ ((get_oauth_token 3600 ⟨some "t1", some 1000⟩ 800 (.ok "t2") false).networkCalled
          = true
        ∧ ∀ tv, (Except.ok "t2" : Except String String) = .ok tv →
            get_oauth_token 3600 ⟨some "t1", some 1000⟩ 800 (.ok "t2") false
              = ⟨⟨some tv, some (800 + 3600)⟩, .ok tv, true⟩) :=
  ⟨(c3_theorem 3600 ⟨some "t1", some 1000⟩ 0 (.ok "t2")).1 "t1" 1000 rfl rfl rfl
      (by norm_num [refresh_threshold]),
   (c3_theorem 3600 ⟨some "t1", some 1000⟩ 800 (.ok "t2")).2 (by
      rintro ⟨tok, expiry, h1, h2, h3, h4⟩
      simp only [Option.some.injEq] at h1 h3
      subst h1
      subst h3
      norm_num [refresh_threshold] at h4)⟩

/-- A concrete sample record with a structured (dict) config. -/
def recA : PipelineRecord :=
  ⟨"etl1", .str "databricks", .none, .bool true, .dict [("x", .num 1)], .none, .none⟩

/-- C9: a record whose config is a structured mapping is mutated in place:
after `create` (whose serialization runs before the connection is acquired)
and after `bulk_upsert` under an open connection, the caller's record holds
the JSON text serialization in place of the mapping — the argument is not
treated as read-only. -/
theorem c9_theorem (env : ConnEnv) (db : Table) (p : PipelineRecord)
    (fields : List (String × Json)) (ps : List PipelineRecord) (now : Nat)
    (tok : String) (hc : p.config = .dict fields)
    (hTok : env.tokenRes = .ok tok) (hConn : env.connectOk = true) :
    (PipelineRepository.create env db p now).pipelineAfter.config
        = .str (Json.dumps (.obj fields))
    ∧ (PipelineRepository.create env db p now).pipelineAfter ≠ p
    ∧ (PipelineRepository.bulk_upsert env db ps now).pipelinesAfter
        = ps.map serializeConfig
    ∧ serializeConfig p ≠ p := by
  have hser : serializeConfig p = { p with config := .str (Json.dumps (.obj fields)) } := by
    simp [serializeConfig, hc]
  have hne : serializeConfig p ≠ p := by
    intro he
    have hcfg := congrArg PipelineRecord.config he
    rw [hser] at hcfg
    simp [hc] at hcfg
  refine ⟨?_, ?_, ?_, hne⟩
  · simp [PipelineRepository.create, hser]
  · simpa [PipelineRepository.create] using hne
  · obtain ⟨tr, co, cf, rf⟩ := env
    replace hTok : tr = Except.ok tok := hTok
    replace hConn : co = true := hConn
    subst hTok hConn
    simp [PipelineRepository.bulk_upsert, Except.isOk, Except.toBool]

/-- C9 witness: concrete record with config mapping x to 1. -/
theorem c9_witness :
    (PipelineRepository.create ⟨.ok "tok", true, false, false⟩ ⟨[], 1⟩ recA 0).pipelineAfter.config
        = .str (Json.dumps (.obj [("x", .num 1)]))
    ∧ (PipelineRepository.create ⟨.ok "tok", true, false, false⟩ ⟨[], 1⟩ recA 0).pipelineAfter ≠ recA
    ∧ (PipelineRepository.bulk_upsert ⟨.ok "tok", true, false, false⟩ ⟨[], 1⟩ [recA] 0).pipelinesAfter
        = [recA].map serializeConfig
    ∧ serializeConfig recA ≠ recA :=
  c9_theorem ⟨.ok "tok", true, false, false⟩ ⟨[], 1⟩ recA [("x", .num 1)] [recA] 0
    "tok" rfl rfl rfl

/-- C10: `drop_schema` and `schema_exists` act on the literal namespace
`metadata` hard-coded in their SQL, no matter which schema the connection
configuration names: their behavior is independent of the configuration,
`drop_schema` removes exactly the `metadata` namespace from the catalog, and
`schema_exists` reports the presence of `metadata` — while the connection's
search path is built from the configured schema. -/
theorem c10_theorem :
    (∀ (cfg cfg2 : LakebaseConfig) (catalog : List String),
        SchemaManager.drop_schema cfg catalog = SchemaManager.drop_schema cfg2 catalog
        ∧ SchemaManager.schema_exists cfg catalog = SchemaManager.schema_exists cfg2 catalog)
    ∧ (∀ (cfg : LakebaseConfig) (catalog : List String),
        "metadata" ∉ SchemaManager.drop_schema cfg catalog
        ∧ (SchemaManager.schema_exists cfg catalog = true ↔ "metadata" ∈ catalog)
        ∧ ∀ s ∈ catalog, s ≠ "metadata" → s ∈ SchemaManager.drop_schema cfg catalog)
    ∧ (∀ cfg : LakebaseConfig, cfg.schema ≠ "metadata" →
        SchemaManager.drop_schema cfg ["metadata", cfg.schema] = [cfg.schema]
        ∧ SchemaManager.schema_exists cfg ["metadata", cfg.schema] = true
        ∧ connectionOptions cfg = "-c search_path=" ++ cfg.schema ++ ",public") := by
  refine ⟨fun cfg cfg2 catalog => ⟨rfl, rfl⟩,
    fun cfg catalog => ⟨?_, ?_, ?_⟩, fun cfg h => ⟨?_, ?_, rfl⟩⟩
  · simp [SchemaManager.drop_schema, List.mem_filter, dropSchemaName]
  · simp [SchemaManager.schema_exists, schemaExistsName, List.contains]
  · intro s hs hne
    simp [SchemaManager.drop_schema, List.mem_filter, dropSchemaName, hs, hne]
  · simp [SchemaManager.drop_schema, dropSchemaName, h]
  · simp [SchemaManager.schema_exists, schemaExistsName, List.contains]

/-- A concrete connection configuration naming a schema other than
`metadata`. -/
def cfgA : LakebaseConfig := ⟨"host", 5432, "db", "user", "other", "require"⟩

/-- C10 witness: with the configuration naming schema `other`, `drop_schema`
still removes `metadata` (keeping `other`), `schema_exists` still reports on
`metadata`, and the search path names `other`. -/
theorem c10_witness :
    SchemaManager.drop_schema cfgA ["metadata", cfgA.schema] = [cfgA.schema]
    ∧ SchemaManager.schema_exists cfgA ["metadata", cfgA.schema] = true
    ∧ connectionOptions cfgA = "-c search_path=" ++ cfgA.schema ++ ",public" :=
  c10_theorem.2.2 cfgA (by decide)

/-- Assigning one allow-listed column leaves `id`, `name` and the timestamps
of the row untouched. -/
theorem Row.setField_frame (r : Row) (field : String) (v : PyVal) :
    (r.setField field v).id = r.id ∧ (r.setField field v).name = r.name
    ∧ (r.setField field v).created_at = r.created_at
    ∧ (r.setField field v).updated_at = r.updated_at := by
  refine ⟨?_, ?_, ?_, ?_⟩ <;> (unfold Row.setField; split_ifs <;> rfl)

/-- Assigning a column other than `schedule` keeps `schedule`. -/
theorem Row.setField_schedule (r : Row) (field : String) (v : PyVal)
    (h : field ≠ "schedule") : (r.setField field v).schedule = r.schedule := by
  unfold Row.setField
  split_ifs <;> first | rfl | exact absurd (by assumption) h

/-- Assigning a column other than `enabled` keeps `enabled`. -/
theorem Row.setField_enabled (r : Row) (field : String) (v : PyVal)
    (h : field ≠ "enabled") : (r.setField field v).enabled = r.enabled := by
  unfold Row.setField
  split_ifs <;> first | rfl | exact absurd (by assumption) h

/-- Assigning a column other than `config` keeps `config`. -/
theorem Row.setField_config (r : Row) (field : String) (v : PyVal)
    (h : field ≠ "config") : (r.setField field v).config = r.config := by
  unfold Row.setField
  split_ifs <;> first | rfl | exact absurd (by assumption) h

/-- Assigning a column other than `owner` keeps `owner`. -/
theorem Row.setField_owner (r : Row) (field : String) (v : PyVal)
    (h : field ≠ "owner") : (r.setField field v).owner = r.owner := by
  unfold Row.setField
  split_ifs <;> first | rfl | exact absurd (by assumption) h

/-- Assigning a column other than `description` keeps `description`. -/
theorem Row.setField_description (r : Row) (field : String) (v : PyVal)
    (h : field ≠ "description") : (r.setField field v).description = r.description := by
  unfold Row.setField
  split_ifs <;> first | rfl | exact absurd (by assumption) h

/-- Assigning a column other than `type` keeps `type`. -/
theorem Row.setField_type (r : Row) (field : String) (v : PyVal)
    (h : field ≠ "type") : (r.setField field v).type = r.type := by
  unfold Row.setField
  split_ifs <;> first | rfl | exact absurd (by assumption) h

/-- Assigning one column leaves every other named column unchanged. -/
theorem Row.getField_setField_ne (r : Row) (field g : String) (v : PyVal)
    (hg : g ≠ field) : Row.getField (r.setField field v) g = Row.getField r g := by
  unfold Row.getField
  split_ifs with h1 h2 h3 h4 h5 h6
  · exact Row.setField_schedule r field v (fun hf => hg (h1.trans hf.symm))
  · exact Row.setField_enabled r field v (fun hf => hg (h2.trans hf.symm))
  · exact Row.setField_config r field v (fun hf => hg (h3.trans hf.symm))
  · exact Row.setField_owner r field v (fun hf => hg (h4.trans hf.symm))
  · exact Row.setField_description r field v (fun hf => hg (h5.trans hf.symm))
  · exact Row.setField_type r field v (fun hf => hg (h6.trans hf.symm))
  · rfl

/-- Pointwise frame property of the row-map performed by the UPDATE
statement. -/
theorem mapUpdate_frame (rows : List Row) (name field : String) (v2 : PyVal)
    (i : Nat) (hi : i < rows.length)
    (hi2 : i < (rows.map (fun r => if r.name = name then r.setField field v2 else r)).length) :
    ((rows.get ⟨i, hi⟩).name ≠ name →
        (rows.map (fun r => if r.name = name then r.setField field v2 else r)).get ⟨i, hi2⟩
          = rows.get ⟨i, hi⟩)
    ∧ ((rows.map (fun r => if r.name = name then r.setField field v2 else r)).get ⟨i, hi2⟩).id
        = (rows.get ⟨i, hi⟩).id
    ∧ ((rows.map (fun r => if r.name = name then r.setField field v2 else r)).get ⟨i, hi2⟩).name
        = (rows.get ⟨i, hi⟩).name
    ∧ ((rows.map (fun r => if r.name = name then r.setField field v2 else r)).get ⟨i, hi2⟩).created_at
        = (rows.get ⟨i, hi⟩).created_at
    ∧ ((rows.map (fun r => if r.name = name then r.setField field v2 else r)).get ⟨i, hi2⟩).updated_at
        = (rows.get ⟨i, hi⟩).updated_at
    ∧ ∀ g, g ≠ field →
        Row.getField ((rows.map (fun r => if r.name = name then r.setField field v2 else r)).get ⟨i, hi2⟩) g
          = Row.getField (rows.get ⟨i, hi⟩) g := by
  simp only [List.get_eq_getElem, List.getElem_map]
  by_cases hn : (rows[i]).name = name
  · rw [if_pos hn]
    refine ⟨fun hcon => absurd hn hcon, (Row.setField_frame _ field v2).1,
      (Row.setField_frame _ field v2).2.1, (Row.setField_frame _ field v2).2.2.1,
      (Row.setField_frame _ field v2).2.2.2, fun g hg => Row.getField_setField_ne _ field g v2 hg⟩
  · rw [if_neg hn]
    exact ⟨fun _ => rfl, rfl, rfl, rfl, rfl, fun g _ => rfl⟩

/-- C6: a successful `update(name, field, value)` changes only the named
column of the rows matching `name`: the table keeps its length and id
counter, rows with a different name are unchanged, and on the matching row
`id`, `name`, `created_at`, `updated_at` and every other named column keep
their values — the application's statement touches nothing else. -/
theorem c6_theorem (env : ConnEnv) (db : Table) (name field : String)
    (value : PyVal) (tok : String) (hf : field ∈ allowed_fields)
    (hTok : env.tokenRes = .ok tok) (hConn : env.connectOk = true)
    (hCf : env.commitFails = false) :
    (PipelineRepository.update env db name field value).db.nextId = db.nextId
    ∧ (PipelineRepository.update env db name field value).db.rows.length = db.rows.length
    ∧ ∀ i (hi : i < db.rows.length)
        (hi2 : i < (PipelineRepository.update env db name field value).db.rows.length),
        ((db.rows.get ⟨i, hi⟩).name ≠ name →
            (PipelineRepository.update env db name field value).db.rows.get ⟨i, hi2⟩
              = db.rows.get ⟨i, hi⟩)
        ∧ ((PipelineRepository.update env db name field value).db.rows.get ⟨i, hi2⟩).id
            = (db.rows.get ⟨i, hi⟩).id
        ∧ ((PipelineRepository.update env db name field value).db.rows.get ⟨i, hi2⟩).name
            = (db.rows.get ⟨i, hi⟩).name
        ∧ ((PipelineRepository.update env db name field value).db.rows.get ⟨i, hi2⟩).created_at
            = (db.rows.get ⟨i, hi⟩).created_at
        ∧ ((PipelineRepository.update env db name field value).db.rows.get ⟨i, hi2⟩).updated_at
            = (db.rows.get ⟨i, hi⟩).updated_at
        ∧ ∀ g, g ≠ field →
            Row.getField ((PipelineRepository.update env db name field value).db.rows.get ⟨i, hi2⟩) g
              = Row.getField (db.rows.get ⟨i, hi⟩) g := by
  obtain ⟨tr, co, cf, rf⟩ := env
  replace hTok : tr = Except.ok tok := hTok
  replace hConn : co = true := hConn
  replace hCf : cf = false := hCf
  subst hTok hConn hCf
  have hdb : (PipelineRepository.update ⟨Except.ok tok, true, false, rf⟩ db name field value).db
      = ⟨db.rows.map (fun r => if r.name = name
            then r.setField field (if field = "config" then
                match value with
                | .dict fs => PyVal.str (Json.dumps (.obj fs))
                | v => v
              else value)
            else r), db.nextId⟩ := by
    simp [PipelineRepository.update, hf, get_connection, sqlUpdate]
  rw [hdb]
  exact ⟨rfl, by simp, fun i hi hi2 => mapUpdate_frame db.rows name field _ i hi hi2⟩

/-- A second concrete sample row, named etl2. -/
def rowB : Row :=
  ⟨2, "etl2", .str "dbt", .none, .bool false, .str "null", .none, .none, 0, 0⟩

/-- C6 witness: updating owner of etl1 leaves the row named etl2 untouched
and keeps the `type` column of etl1. -/
theorem c6_witness :
    ((PipelineRepository.update ⟨.ok "tok", true, false, false⟩ ⟨[rowA, rowB], 3⟩
          "etl1" "owner" (.str "alice")).db.rows.get ⟨1, by decide⟩ = rowB)
    ∧ Row.getField ((PipelineRepository.update ⟨.ok "tok", true, false, false⟩
          ⟨[rowA, rowB], 3⟩ "etl1" "owner" (.str "alice")).db.rows.get ⟨0, by decide⟩)
        "type" = Row.getField rowA "type" :=
  ⟨((c6_theorem ⟨.ok "tok", true, false, false⟩ ⟨[rowA, rowB], 3⟩ "etl1" "owner"
        (.str "alice") "tok" (by decide) rfl rfl rfl).2.2 1 (by decide) (by decide)).1
      (by decide),
   ((c6_theorem ⟨.ok "tok", true, false, false⟩ ⟨[rowA, rowB], 3⟩ "etl1" "owner"
        (.str "alice") "tok" (by decide) rfl rfl rfl).2.2 0 (by decide)
      (by decide)).2.2.2.2.2 "type" (by decide)⟩

/-- The last record of the list carrying a given name — under the
sequential last-wins semantics of the upsert loop, the record whose values
the final row with that name holds. -/
def lastRec (n : String) : List PipelineRecord → Option PipelineRecord
  | [] => none
  | p :: ps =>
    match lastRec n ps with
    | some q => some q
    | none => if p.name = n then some p else none

/-- The table has a row with the given name. -/
def hasName (t : Table) (n : String) : Prop := ∃ r ∈ t.rows, r.name = n

/-- The row a finished upsert run leaves at the place of an existing row:
overwritten by the serialized last record with its name, if any. -/
def applyLast (ps : List PipelineRecord) (r : Row) : Row :=
  match lastRec r.name ps with
  | some q => r.overwriteWith (serializeConfig q)
  | none => r

/-- Serializing the config leaves the record's name unchanged. -/
theorem serializeConfig_name (p : PipelineRecord) :
    (serializeConfig p).name = p.name := by
  unfold serializeConfig
  split <;> rfl

/-- Overwriting the mutable columns keeps the row's name. -/
@[simp] theorem Row.overwriteWith_name (r : Row) (p : PipelineRecord) :
    (r.overwriteWith p).name = r.name := rfl

/-- Overwriting twice is the same as overwriting with the later record. -/
theorem Row.overwriteWith_overwriteWith (r : Row) (a b : PipelineRecord) :
    (r.overwriteWith a).overwriteWith b = r.overwriteWith b := rfl

/-- Unfolding equation of `lastRec` on a cons cell whose tail has a hit. -/
theorem lastRec_cons_some (n : String) (p : PipelineRecord) (ps : List PipelineRecord)
    (q : PipelineRecord) (h : lastRec n ps = some q) :
    lastRec n (p :: ps) = some q := by
  unfold lastRec
  rw [h]

/-- Unfolding equation of `lastRec` on a cons cell whose tail has no hit. -/
theorem lastRec_cons_none (n : String) (p : PipelineRecord) (ps : List PipelineRecord)
    (h : lastRec n ps = none) :
    lastRec n (p :: ps) = if p.name = n then some p else none := by
  unfold lastRec
  rw [h]

/-- When `lastRec` finds nothing, no record of the list has the name. -/
theorem lastRec_eq_none (n : String) :
    ∀ ps : List PipelineRecord, lastRec n ps = none → ∀ q ∈ ps, q.name ≠ n := by
  intro ps
  induction ps with
  | nil => intro h q hq; exact absurd hq (List.not_mem_nil q)
  | cons p ps ih =>
    intro h q hq
    cases hl : lastRec n ps with
    | some q2 =>
      rw [lastRec_cons_some n p ps q2 hl] at h
      exact Option.noConfusion h
    | none =>
      rw [lastRec_cons_none n p ps hl] at h
      split_ifs at h with hp
      rcases List.mem_cons.mp hq with rfl | hq2
      · exact hp
      · exact ih hl q hq2

/-- One upsert statement preserves existing names. -/
theorem sqlUpsert_hasName_mono (t : Table) (p : PipelineRecord) (now : Nat)
    (n : String) (h : hasName t n) : hasName (sqlUpsert t p now) n := by
  obtain ⟨r, hr, hn⟩ := h
  unfold sqlUpsert hasName
  split_ifs with hb
  · refine ⟨_, List.mem_map_of_mem _ hr, ?_⟩
    by_cases hc : r.name = p.name
    · rw [if_pos hc]; exact hn
    · rw [if_neg hc]; exact hn
  · exact ⟨r, List.mem_append_left _ hr, hn⟩

/-- One upsert statement establishes the record's own name. -/
theorem sqlUpsert_hasName_self (t : Table) (p : PipelineRecord) (now : Nat) :
    hasName (sqlUpsert t p now) p.name := by
  unfold sqlUpsert hasName
  split_ifs with hb
  · obtain ⟨r, hr, hdec⟩ := List.any_eq_true.mp hb
    have hname : r.name = p.name := of_decide_eq_true hdec
    refine ⟨_, List.mem_map_of_mem _ hr, ?_⟩
    rw [if_pos hname]
    exact hname
  · exact ⟨_, List.mem_append_right _ (List.mem_singleton.mpr rfl), rfl⟩

/-- The upsert loop preserves existing names. -/
theorem bulkUpsertTable_hasName_mono (now : Nat) :
    ∀ (ps : List PipelineRecord) (t : Table) (n : String),
      hasName t n → hasName (bulkUpsertTable t ps now) n := by
  intro ps
  induction ps with
  | nil => intro t n h; exact h
  | cons p ps ih =>
    intro t n h
    exact ih (sqlUpsert t (serializeConfig p) now) n
      (sqlUpsert_hasName_mono t (serializeConfig p) now n h)

/-- After the upsert loop every submitted record's name is present. -/
theorem bulkUpsertTable_hasName_of_mem (now : Nat) :
    ∀ (ps : List PipelineRecord) (t : Table) (p : PipelineRecord),
      p ∈ ps → hasName (bulkUpsertTable t ps now) p.name := by
  intro ps
  induction ps with
  | nil => intro t p hp; exact absurd hp (List.not_mem_nil p)
  | cons p0 ps ih =>
    intro t p hp
    rcases List.mem_cons.mp hp with rfl | hp2
    · have h0 : hasName (sqlUpsert t (serializeConfig p) now) p.name := by
        have := sqlUpsert_hasName_self t (serializeConfig p) now
        rwa [serializeConfig_name] at this
      exact bulkUpsertTable_hasName_mono now ps _ _ h0
    · exact ih (sqlUpsert t (serializeConfig p0) now) p hp2

/-- Pointwise: applying an upsert for the head record and then the final
overwrite for the tail equals the final overwrite for the whole list. -/
theorem applyLast_step (p : PipelineRecord) (ps : List PipelineRecord) (r : Row) :
    applyLast ps (if r.name = (serializeConfig p).name
        then r.overwriteWith (serializeConfig p) else r)
      = applyLast (p :: ps) r := by
  rw [serializeConfig_name]
  by_cases hc : r.name = p.name
  · rw [if_pos hc]
    unfold applyLast
    simp only [Row.overwriteWith_name]
    cases hl : lastRec r.name ps with
    | some q =>
      rw [lastRec_cons_some r.name p ps q hl]
      exact Row.overwriteWith_overwriteWith r (serializeConfig p) (serializeConfig q)
    | none =>
      rw [lastRec_cons_none r.name p ps hl, if_pos hc.symm]
  · rw [if_neg hc]
    unfold applyLast
    cases hl : lastRec r.name ps with
    | some q =>
      rw [lastRec_cons_some r.name p ps q hl]
    | none =>
      rw [lastRec_cons_none r.name p ps hl, if_neg (fun h => hc h.symm)]

/-- When every submitted name already exists in the table, the upsert loop
inserts nothing: it maps the final overwrite over the existing rows and
keeps the id counter. -/
theorem bulkUpsertTable_updateOnly (now : Nat) :
    ∀ (ps : List PipelineRecord) (t : Table),
      (∀ p ∈ ps, hasName t p.name) →
      bulkUpsertTable t ps now = ⟨t.rows.map (applyLast ps), t.nextId⟩ := by
  intro ps
  induction ps with
  | nil =>
    intro t h
    cases t with
    | mk rows nid =>
      show (⟨rows, nid⟩ : Table) = ⟨List.map (applyLast []) rows, nid⟩
      have hmap : List.map (applyLast []) rows = rows :=
        calc List.map (applyLast []) rows
            = List.map id rows := List.map_congr_left (fun r _ => rfl)
          _ = rows := List.map_id rows
      rw [hmap]
  | cons p ps ih =>
    intro t h
    have hp : hasName t p.name := h p (List.mem_cons_self p ps)
    have hps : ∀ q ∈ ps, hasName (sqlUpsert t (serializeConfig p) now) q.name :=
      fun q hq => sqlUpsert_hasName_mono t (serializeConfig p) now q.name
        (h q (List.mem_cons_of_mem p hq))
    show bulkUpsertTable (sqlUpsert t (serializeConfig p) now) ps now = _
    rw [ih _ hps]
    have hany : t.rows.any (fun r => decide (r.name = (serializeConfig p).name)) = true := by
      obtain ⟨r, hr, hn⟩ := hp
      refine List.any_eq_true.mpr ⟨r, hr, ?_⟩
      rw [serializeConfig_name]
      exact decide_eq_true hn
    have hsql : sqlUpsert t (serializeConfig p) now
        = ⟨t.rows.map (fun r => if r.name = (serializeConfig p).name
              then r.overwriteWith (serializeConfig p) else r), t.nextId⟩ := by
      unfold sqlUpsert
      rw [if_pos hany]
    rw [hsql, List.map_map]
    exact congrArg (fun l => Table.mk l t.nextId)
      (List.map_congr_left (fun r _ => applyLast_step p ps r))

/-- Rows whose name is named by no submitted record pass through the upsert
loop untouched. -/
theorem bulkUpsertTable_untouched (now : Nat) :
    ∀ (ps : List PipelineRecord) (t : Table) (n : String),
      (∀ q ∈ ps, q.name ≠ n) →
      ∀ r ∈ (bulkUpsertTable t ps now).rows, r.name = n → r ∈ t.rows := by
  intro ps
  induction ps with
  | nil => intro t n h r hr hn; exact hr
  | cons p ps ih =>
    intro t n h r hr hn
    have hpn : p.name ≠ n := h p (List.mem_cons_self p ps)
    have step : r ∈ (sqlUpsert t (serializeConfig p) now).rows :=
      ih (sqlUpsert t (serializeConfig p) now) n
        (fun q hq => h q (List.mem_cons_of_mem p hq)) r hr hn
    unfold sqlUpsert at step
    split_ifs at step with hb
    · obtain ⟨r0, hr0, heq⟩ := List.mem_map.mp step
      by_cases hc : r0.name = (serializeConfig p).name
      · exfalso
        rw [if_pos hc] at heq
        apply hpn
        rw [serializeConfig_name] at hc
        rw [← hc]
        rw [← heq] at hn
        simpa using hn
      · rw [if_neg hc] at heq
        rw [← heq]
        exact hr0
    · rcases List.mem_append.mp step with h1 | h2
      · exact h1
      · exfalso
        apply hpn
        rw [← hn, List.mem_singleton.mp h2]
        exact (serializeConfig_name p).symm


/-- Every row of an upsert result that carries the upserted record's name
holds exactly that record's mutable values. -/
theorem sqlUpsert_fix (t : Table) (p : PipelineRecord) (now : Nat) :
    ∀ r ∈ (sqlUpsert t p now).rows, r.name = p.name → r.overwriteWith p = r := by
  unfold sqlUpsert
  split_ifs with hb
  · intro r hr hn
    obtain ⟨r0, hr0, heq⟩ := List.mem_map.mp hr
    by_cases hc : r0.name = p.name
    · rw [if_pos hc] at heq
      rw [← heq]
      exact Row.overwriteWith_overwriteWith r0 p p
    · rw [if_neg hc] at heq
      exfalso
      rw [← heq] at hn
      exact hc hn
  · intro r hr hn
    rcases List.mem_append.mp hr with h1 | h2
    · exfalso
      exact hb (List.any_eq_true.mpr ⟨r, h1, decide_eq_true hn⟩)
    · rw [List.mem_singleton.mp h2]
      rfl

/-- Invariant of the upsert loop: every row of the final table carrying a
name for which the list has a last record holds that record's (serialized)
mutable values. -/
theorem bulkUpsertTable_fix (now : Nat) :
    ∀ (ps : List PipelineRecord) (t : Table),
      ∀ r ∈ (bulkUpsertTable t ps now).rows,
      ∀ q, lastRec r.name ps = some q →
      r.overwriteWith (serializeConfig q) = r := by
  intro ps
  induction ps with
  | nil =>
    intro t r hr q hq
    exact Option.noConfusion hq
  | cons p ps ih =>
    intro t r hr q hq
    cases hl : lastRec r.name ps with
    | some q2 =>
      rw [lastRec_cons_some r.name p ps q2 hl] at hq
      injection hq with hq2
      subst hq2
      exact ih (sqlUpsert t (serializeConfig p) now) r hr q2 hl
    | none =>
      rw [lastRec_cons_none r.name p ps hl] at hq
      split_ifs at hq with hpn
      injection hq with hq2
      subst hq2
      have hnone : ∀ q2 ∈ ps, q2.name ≠ r.name := lastRec_eq_none r.name ps hl
      have hr2 : r ∈ (sqlUpsert t (serializeConfig p) now).rows :=
        bulkUpsertTable_untouched now ps (sqlUpsert t (serializeConfig p) now)
          r.name hnone r hr rfl
      exact sqlUpsert_fix t (serializeConfig p) now r hr2
        (by rw [serializeConfig_name]; exact hpn.symm)

/-- One upsert statement keeps the table's names duplicate-free. -/
theorem sqlUpsert_names_nodup (t : Table) (p : PipelineRecord) (now : Nat)
    (h : (t.rows.map Row.name).Nodup) :
    ((sqlUpsert t p now).rows.map Row.name).Nodup := by
  unfold sqlUpsert
  split_ifs with hb
  · rw [List.map_map]
    have hmap : List.map (Row.name ∘ fun r =>
          if r.name = p.name then r.overwriteWith p else r) t.rows
        = List.map Row.name t.rows := by
      refine List.map_congr_left (fun r _ => ?_)
      by_cases hc : r.name = p.name
      · show ((if r.name = p.name then r.overwriteWith p else r)).name = r.name
        rw [if_pos hc]
        rfl
      · show ((if r.name = p.name then r.overwriteWith p else r)).name = r.name
        rw [if_neg hc]
    rw [hmap]
    exact h
  · rw [List.map_append]
    simp only [List.map_cons, List.map_nil]
    refine List.Nodup.append h (List.nodup_singleton _) ?_
    rw [List.disjoint_singleton]
    intro hmem
    obtain ⟨r, hr, hn⟩ := List.mem_map.mp hmem
    exact hb (List.any_eq_true.mpr ⟨r, hr, decide_eq_true hn⟩)

/-- The upsert loop keeps the table's names duplicate-free. -/
theorem bulkUpsertTable_names_nodup (now : Nat) :
    ∀ (ps : List PipelineRecord) (t : Table),
      (t.rows.map Row.name).Nodup →
      ((bulkUpsertTable t ps now).rows.map Row.name).Nodup := by
  intro ps
  induction ps with
  | nil => intro t h; exact h
  | cons p ps ih =>
    intro t h
    exact ih (sqlUpsert t (serializeConfig p) now)
      (sqlUpsert_names_nodup t (serializeConfig p) now h)

/-- C8: `bulk_upsert` is idempotent on the store. Re-submitting the same
list of records leaves the pipelines table exactly as the first submission
left it; the loop never introduces duplicate names into a duplicate-free
table; and after one submission every submitted name is carried by a row
holding the (serialized) mutable values of the last record with that name. -/
theorem c8_theorem (t : Table) (ps : List PipelineRecord) (now now2 : Nat) :
    bulkUpsertTable (bulkUpsertTable t ps now) ps now2 = bulkUpsertTable t ps now
    ∧ ((t.rows.map Row.name).Nodup →
        ((bulkUpsertTable t ps now).rows.map Row.name).Nodup)
    ∧ ∀ p ∈ ps, ∀ q, lastRec p.name ps = some q →
        ∃ r ∈ (bulkUpsertTable t ps now).rows, r.name = p.name
          ∧ r.overwriteWith (serializeConfig q) = r := by
  refine ⟨?_, bulkUpsertTable_names_nodup now ps t, ?_⟩
  · have hall : ∀ p ∈ ps, hasName (bulkUpsertTable t ps now) p.name :=
      fun p hp => bulkUpsertTable_hasName_of_mem now ps t p hp
    rw [bulkUpsertTable_updateOnly now2 ps (bulkUpsertTable t ps now) hall]
    have hmap : List.map (applyLast ps) (bulkUpsertTable t ps now).rows
        = (bulkUpsertTable t ps now).rows :=
      calc List.map (applyLast ps) (bulkUpsertTable t ps now).rows
          = List.map id (bulkUpsertTable t ps now).rows := by
            refine List.map_congr_left (fun r hr => ?_)
            unfold applyLast
            cases hl : lastRec r.name ps with
            | some q => exact bulkUpsertTable_fix now ps t r hr q hl
            | none => rfl
        _ = (bulkUpsertTable t ps now).rows :=
            List.map_id (bulkUpsertTable t ps now).rows
    rw [hmap]
  · intro p hp q hq
    obtain ⟨r, hr, hn⟩ := bulkUpsertTable_hasName_of_mem now ps t p hp
    refine ⟨r, hr, hn, ?_⟩
    apply bulkUpsertTable_fix now ps t r hr q
    rw [hn]
    exact hq

/-- C8 witness: concrete double submission of a one-record list. -/
theorem c8_witness :
    bulkUpsertTable (bulkUpsertTable ⟨[], 1⟩ [recA] 0) [recA] 1
        = bulkUpsertTable ⟨[], 1⟩ [recA] 0
    ∧ ((bulkUpsertTable (⟨[], 1⟩ : Table) [recA] 0).rows.map Row.name).Nodup :=
  ⟨(c8_theorem ⟨[], 1⟩ [recA] 0 1).1,
   (c8_theorem ⟨[], 1⟩ [recA] 0 1).2.1 List.nodup_nil⟩

end AirflowMeta
